import Mathlib

/-!
Verification of the UKS persistent knowledge-graph store.

Shallow embedding of the core components:
- `src/packages/core/src/graph-manager.js`  (KnowledgeGraphManager)
- `src/packages/core/src/backup-manager.js` (BackupManager)
- `src/packages/core/src/vector-manager.js` (VectorManager.cosineSimilarity)
- the validator module (`validateContext`, `sanitizeString`, `requireString`)
- the ingest pipeline's auto-vivified relation-target stubs (IngestManager.ingest)

JavaScript strings are modeled as Lean `String`s; the handful of string
operations the code uses (lexicographic sort of file names, prefix tests,
substring search, trim, lower-casing) are given explicit executable
definitions over `List Char` so that concrete runs reduce in the kernel.

The filesystem state visible to these components (graph files per context,
the backup directory, the lock marker) is modeled by the `Store` structure.
A graph file's byte content is modeled by the parsed `Graph` value: every
write serializes a full `Graph` deterministically (header line, then one
line per entity, then one line per relation), so two files are
byte-identical exactly when their `Graph` values are equal, and
`copyFile` (snapshot / restore) is modeled by copying the `Graph` value.
-/

namespace UKS

/-! ### JS string primitives over `List Char` -/

/-- Lexicographic comparison of char lists by code point, the order
JavaScript's default `Array.prototype.sort` uses on (ASCII) strings. -/
def lexLe : List Char → List Char → Bool
  | [], _ => true
  | _ :: _, [] => false
  | a :: as, b :: bs => if a = b then lexLe as bs else decide (a < b)

/-- JS `a <= b` on strings (default sort order). -/
def strLe (a b : String) : Bool := lexLe a.data b.data

/-- JS `String.prototype.startsWith`: is the first list a prefix of the second? -/
def pfxChars : List Char → List Char → Bool
  | [], _ => true
  | _ :: _, [] => false
  | a :: as, b :: bs => a = b && pfxChars as bs

/-- JS `name.startsWith(p)`. -/
def strStarts (name p : String) : Bool := pfxChars p.data name.data

/-- JS `String.prototype.includes`: does `n` occur contiguously in `h`? -/
def subChars (n : List Char) : List Char → Bool
  | [] => pfxChars n []
  | c :: rest => pfxChars n (c :: rest) || subChars n rest

/-- JS `hay.includes(needle)`. -/
def strIncludes (hay needle : String) : Bool := subChars needle.data hay.data

/-- JS `String.prototype.trim` (drop leading and trailing whitespace). -/
def jsTrim (s : String) : List Char :=
  ((s.data.dropWhile Char.isWhitespace).reverse.dropWhile Char.isWhitespace).reverse

/-- JS `String.prototype.toLowerCase` (ASCII range, which is all the code relies on). -/
def strLower (s : String) : List Char := s.data.map Char.toLower

/-! ### Error taxonomy (`src/packages/core/src/errors.js`)

`ValidationError`, `LockError`, `StorageError`, `NotFoundError`; a mutator
passed to `updateGraph` may also raise an arbitrary error, modeled by
`Err.other`. -/

inductive Err where
  | validation (msg : String)
  | lock (msg : String)
  | storage (msg : String)
  | notFound (msg : String)
  | other (msg : String)
deriving Repr, DecidableEq

/-! ### Validator (`validateContext`, `sanitizeString`, `requireString`) -/

/-- A JS argument that should be a string but might not be
(`validateContext` treats non-strings specially). -/
inductive CtxArg where
  | str (s : String)
  | nonString
deriving Repr, DecidableEq

/-- The character class `[a-zA-Z0-9-_]` of the context-name regex. -/
def allowedCtxChar (c : Char) : Bool :=
  (('a' ≤ c && c ≤ 'z') || ('A' ≤ c && c ≤ 'Z') || ('0' ≤ c && c ≤ '9')
    || c = '-' || c = '_')

/-- Model of `validateContext` from the validator module:
non-strings become `"default"`; a string containing any character outside
`[a-zA-Z0-9-_]` raises `ValidationError` (the cleaned copy differs from the
original exactly then); an empty (string) result falls back to `"default"`. -/
def validateContext : CtxArg → Except Err String
  | .nonString => .ok "default"
  | .str s =>
      let cleaned : String := ⟨s.data.filter allowedCtxChar⟩
      if cleaned = s then
        .ok (if cleaned = "" then "default" else cleaned)
      else
        .error (.validation "Context name must be alphanumeric (hyphens and underscores allowed)")

/-- Model of `requireString`: non-empty after trim (the typed model rules out
non-string values). Returns the trimmed string, as the JS does. -/
def requireStr (value : String) (fieldName : String) : Except Err String :=
  if jsTrim value = [] then
    .error (.validation (fieldName ++ " must be a non-empty string"))
  else
    .ok ⟨jsTrim value⟩

/-- Model of `sanitizeString` with a length limit (checked on the trimmed string). -/
def sanitizeStr (value : String) (fieldName : String) (maxLength : Nat) : Except Err String :=
  match requireStr value fieldName with
  | .error e => .error e
  | .ok t =>
      if t.data.length > maxLength then
        .error (.validation (fieldName ++ " exceeds maximum length"))
      else
        .ok t

/-! ### Data model (graph-manager.js typedefs) -/

structure Entity where
  id : String
  name : String
  entityType : String
  observations : List String
deriving Repr, DecidableEq

structure Relation where
  fromId : String
  toId : String
  fromName : String
  toName : String
  relationType : String
deriving Repr, DecidableEq

structure Graph where
  entities : List Entity
  relations : List Relation
deriving Repr, DecidableEq

def Graph.empty : Graph := ⟨[], []⟩

/-! ### Backup manager (`src/packages/core/src/backup-manager.js`)

A backup file records which context's snapshot it is (its provenance), the
timestamp component of its file name, and the copied content. The file
name is derived exactly as in `createSnapshot`. -/

structure BackupFile where
  ctx : String
  ts : String
  content : Graph
deriving Repr, DecidableEq

/-- The backup file name `graph-<context>-<timestamp>.jsonl`. -/
def BackupFile.fname (b : BackupFile) : String :=
  "graph-" ++ b.ctx ++ "-" ++ b.ts ++ ".jsonl"

/-- The filter `f.startsWith('graph-<context>-')` used by both
`pruneBackups` and `restoreLatest`. -/
def backupMatches (ctx : String) (b : BackupFile) : Bool :=
  strStarts b.fname ("graph-" ++ ctx ++ "-")

/-- The ordering `files.sort().reverse()` establishes: later file names
(newer timestamps) first. -/
def newerFirst (a b : BackupFile) : Prop := strLe b.fname a.fname = true

instance : DecidableRel newerFirst := fun a b => by
  unfold newerFirst
  infer_instance

theorem lexLe_total : ∀ as bs : List Char, lexLe as bs = true ∨ lexLe bs as = true
  | [], _ => Or.inl rfl
  | _ :: _, [] => Or.inr rfl
  | a :: as, b :: bs => by
      by_cases h : a = b
      · subst h
        simpa [lexLe] using lexLe_total as bs
      · rcases lt_or_gt_of_ne h with hlt | hgt
        · left
          simp [lexLe, h, hlt]
        · right
          simp [lexLe, Ne.symm h, hgt]

theorem lexLe_trans : ∀ as bs cs : List Char,
    lexLe as bs = true → lexLe bs cs = true → lexLe as cs = true
  | [], _, _ => by intro _ _; rfl
  | _ :: _, [], _ => by intro h _; simp [lexLe] at h
  | _ :: _, _ :: _, [] => by intro _ h; simp [lexLe] at h
  | a :: as, b :: bs, c :: cs => by
      intro h1 h2
      by_cases hab : a = b <;> by_cases hbc : b = c
      · subst hab; subst hbc
        simp only [lexLe, if_pos rfl] at h1 h2 ⊢
        exact lexLe_trans as bs cs h1 h2
      · subst hab
        simpa [lexLe, hbc] using h2
      · subst hbc
        simpa [lexLe, hab] using h1
      · simp only [lexLe, if_neg hab, if_neg hbc] at h1 h2
        have hac : a < c := lt_trans (of_decide_eq_true h1) (of_decide_eq_true h2)
        have : a ≠ c := ne_of_lt hac
        simp [lexLe, this, hac]

instance : IsTotal BackupFile newerFirst :=
  ⟨fun a b => (lexLe_total b.fname.data a.fname.data).imp id id⟩

instance : IsTrans BackupFile newerFirst :=
  ⟨fun _ _ _ h1 h2 => lexLe_trans _ _ _ h2 h1⟩

/-- The sort `files.sort().reverse()`: newest first by file-name order. -/
def sortBackupsDesc (bs : List BackupFile) : List BackupFile :=
  List.insertionSort newerFirst bs

/-- Model of `pruneBackups`: if more than `maxBackups` files match the context
prefix, keep the `maxBackups` newest of them and delete the rest;
otherwise leave the directory untouched. -/
def pruneBackups (maxBackups : Nat) (ctx : String) (bs : List BackupFile) : List BackupFile :=
  let matching := bs.filter (backupMatches ctx)
  if matching.length > maxBackups then
    bs.filter (fun b => ¬ backupMatches ctx b) ++ (sortBackupsDesc matching).take maxBackups
  else
    bs

/-! ### The store state

`files` is the association of context name to graph-file content (a missing
key models an absent file); `backups` models the `.backups` directory;
`locked` models the `.lock` marker (single-process view: all modeled
operations run in the lock's owning process, so `releaseLock`'s pid check
always passes). -/

structure Store where
  files : List (String × Graph)
  backups : List BackupFile
  locked : Bool
deriving Repr, DecidableEq

def lookupFile (files : List (String × Graph)) (ctx : String) : Option Graph :=
  (files.find? (fun p => p.1 = ctx)).map Prod.snd

/-- Overwrite (or create) the graph file of a context. -/
def setFile (files : List (String × Graph)) (ctx : String) (g : Graph) :
    List (String × Graph) :=
  files.filter (fun p => p.1 ≠ ctx) ++ [(ctx, g)]

/-- Model of `loadGraph` on a validated context: a missing file is an empty graph.
(The line-by-line parse is inverse to the serialization `updateGraph`
writes, so the parsed value is the stored `Graph` itself.) -/
def loadGraph (st : Store) (ctx : String) : Graph :=
  (lookupFile st.files ctx).getD Graph.empty

/-- Model of `createSnapshot`: if the context's graph file exists, copy its bytes to
`graph-<ctx>-<timestamp>.jsonl` in the backup directory (overwriting a
same-named file, as `copyFile` does) and prune; otherwise do nothing and
report `null`. -/
def createSnapshot (maxBackups : Nat) (st : Store) (ctx ts : String) : Store :=
  match lookupFile st.files ctx with
  | none => st
  | some g =>
      let nb : BackupFile := ⟨ctx, ts, g⟩
      let bs := st.backups.filter (fun b => b.fname ≠ nb.fname) ++ [nb]
      { st with backups := pruneBackups maxBackups ctx bs }

/-- Model of `restoreLatest`: newest matching backup by file-name order is copied
over the live graph file; no matching backup is a `NotFoundError`. -/
def restoreLatest (st : Store) (ctx : String) : Except Err String × Store :=
  match sortBackupsDesc (st.backups.filter (backupMatches ctx)) with
  | [] => (.error (.notFound "No backups found to restore."), st)
  | latest :: _ =>
      (.ok latest.fname, { st with files := setFile st.files ctx latest.content })

/-- The `maxBackups` default of `BackupManager` (`options.maxBackups || 5`). -/
def defaultMaxBackups : Nat := 5

/-! ### Graph manager transactions (`graph-manager.js`)

`updateGraphRun` is `updateGraph` together with the closure-captured result
value its callers (`addEntity`, `addRelation`) read back: validate the
context, acquire the lock, load, run the mutator (which may raise), then
snapshot, write the full serialized graph, and always release the lock.
A lock already held (by a live, recent holder) exhausts the bounded
retries and surfaces as `LockError`. -/

def updateGraphRun {α : Type} (maxBackups : Nat) (st : Store) (ctxArg : CtxArg)
    (ts : String) (f : Graph → Except Err (Graph × α)) : Except Err α × Store :=
  match validateContext ctxArg with
  | .error e => (.error e, st)
  | .ok ctx =>
    if st.locked then
      (.error (.lock "Failed to acquire lock: Graph is busy."), st)
    else
      let st1 := { st with locked := true }
      match f (loadGraph st1 ctx) with
      | .error e => (.error e, { st1 with locked := false })
      | .ok (g, a) =>
          let st2 := createSnapshot maxBackups st1 ctx ts
          let st3 := { st2 with files := setFile st2.files ctx g }
          (.ok a, { st3 with locked := false })

/-- The op `updateGraph` proper (result value discarded). -/
def updateGraph (maxBackups : Nat) (st : Store) (ctxArg : CtxArg) (ts : String)
    (f : Graph → Except Err Graph) : Except Err Unit × Store :=
  updateGraphRun maxBackups st ctxArg ts (fun g => (f g).map (fun g' => (g', ())))

/-- Model of `undo`: validate, lock, `restoreLatest`, unlock. -/
def undo (st : Store) (ctxArg : CtxArg) : Except Err String × Store :=
  match validateContext ctxArg with
  | .error e => (.error e, st)
  | .ok ctx =>
    if st.locked then
      (.error (.lock "Failed to acquire lock: Graph is busy."), st)
    else
      let st1 := { st with locked := true }
      let r := restoreLatest st1 ctx
      (r.1, { r.2 with locked := false })

/-! ### addEntity -/

/-- The fallback `entity.entityType || 'Concept'` (JS `||`: also replaces the empty string). -/
def flavorOf : Option String → String
  | some s => if s = "" then "Concept" else s
  | none => "Concept"

/-- The slug `flavor.toLowerCase().replace(/[^a-z0-9-]/g, '')`. -/
def cleanFlavor (entityType : Option String) : String :=
  ⟨(strLower (flavorOf entityType)).filter
    (fun c => ('a' ≤ c && c ≤ 'z') || ('0' ≤ c && c ≤ '9') || c = '-')⟩

/-- The URN id `addEntity` mints for a new entity. -/
def mkUrn (entityType : Option String) (uuid : String) : String :=
  "urn:uks:local:" ++ cleanFlavor entityType ++ ":" ++ uuid

/-- The merge step: append the new observations not already present. -/
def mergeObs (existing newObs : List String) : List String :=
  existing ++ newObs.filter (fun o => !existing.contains o)

/-- In-place mutation of the first entity with the given name
(`graph.entities.find(...)` returns the first match and is mutated). -/
def mergeFirstEntity (name : String) (obs : List String) : List Entity → List Entity
  | [] => []
  | e :: rest =>
      if e.name == name then
        { e with observations := mergeObs e.observations obs } :: rest
      else
        e :: mergeFirstEntity name obs rest

/-- The mutator closure of `addEntity`, returning the updated graph and the
captured `entityId`. `uuid` stands for the `crypto.randomUUID()` draw. -/
def addEntityMutator (name : String) (entityType : Option String) (obs : List String)
    (uuid : String) (g : Graph) : Graph × String :=
  match g.entities.find? (fun e => e.name == name) with
  | some existing =>
      ({ g with entities := mergeFirstEntity name obs g.entities }, existing.id)
  | none =>
      let newId := mkUrn entityType uuid
      ({ g with entities := g.entities ++ [⟨newId, name, flavorOf entityType, obs⟩] }, newId)

/-- Model of `addEntity`: validate the name (≤ 500 chars, non-empty after trim; the
typed model makes `validateObservations` pass by construction), then run
the upsert inside `updateGraph` and return the captured id. -/
def addEntity (maxBackups : Nat) (st : Store) (name : String) (entityType : Option String)
    (obs : List String) (uuid ts : String) (ctxArg : CtxArg) : Except Err String × Store :=
  match sanitizeStr name "entity.name" 500 with
  | .error e => (.error e, st)
  | .ok _ =>
      updateGraphRun maxBackups st ctxArg ts
        (fun g => .ok (addEntityMutator name entityType obs uuid g))

/-! ### addRelation -/

/-- The duplicate test of `addRelation`: same `(fromId, toId, relationType)` triple. -/
def relKey (fromId toId relType : String) (r : Relation) : Bool :=
  r.fromId == fromId && r.toId == toId && r.relationType == relType

/-- The mutator closure of `addRelation`: resolve both endpoints by
name-or-id (first match), fail `NotFoundError` if either is missing,
suppress a duplicate `(fromId, toId, relationType)` triple, else append. -/
def addRelationMutator (fromRef toRef relType : String) (g : Graph) : Except Err Graph :=
  match g.entities.find? (fun e => e.name == fromRef || e.id == fromRef),
        g.entities.find? (fun e => e.name == toRef || e.id == toRef) with
  | some fe, some te =>
      if g.relations.any (relKey fe.id te.id relType) then
        .ok g
      else
        .ok { g with relations := g.relations ++ [⟨fe.id, te.id, fe.name, te.name, relType⟩] }
  | _, _ =>
      .error (.notFound ("Cannot link: Entity not found (" ++ fromRef ++ " or " ++ toRef ++ ")"))

/-- Model of `addRelation`: validate the three strings, run the mutator inside
`updateGraph`, report `true` on success. -/
def addRelation (maxBackups : Nat) (st : Store) (fromRef toRef relType : String)
    (ts : String) (ctxArg : CtxArg) : Except Err Bool × Store :=
  match sanitizeStr fromRef "relation.from" 500 with
  | .error e => (.error e, st)
  | .ok _ =>
  match sanitizeStr toRef "relation.to" 500 with
  | .error e => (.error e, st)
  | .ok _ =>
  match requireStr relType "relation.relationType" with
  | .error e => (.error e, st)
  | .ok _ =>
      updateGraphRun maxBackups st ctxArg ts
        (fun g => (addRelationMutator fromRef toRef relType g).map (fun g' => (g', true)))

/-! ### search (read-only, lock-free) -/

/-- Keyword search: case-insensitive substring match on entity name and
observations, plus all relations touching a matched entity. -/
def search (st : Store) (query : String) (ctxArg : CtxArg) :
    Except Err (List Entity × List Relation) :=
  match requireStr query "query" with
  | .error e => .error e
  | .ok _ =>
  match validateContext ctxArg with
  | .error e => .error e
  | .ok ctx =>
      let g := loadGraph st ctx
      let q := strLower query
      let ents := g.entities.filter (fun e =>
        subChars q (strLower e.name) || e.observations.any (fun o => subChars q (strLower o)))
      let ids := ents.map (fun e => e.id)
      let rels := g.relations.filter (fun r => ids.contains r.fromId || ids.contains r.toId)
      .ok (ents, rels)

/-! ### Ingest pipeline detail (`IngestManager.ingest`, src/unnamed/part_012) -/

/-- The auto-vivified relation-target stub: a relation target that does not
yet exist as an entity is created with `id: crypto.randomUUID()` — a bare
UUID string, not a `urn:uks:...` id. `uuid` stands for the draw. -/
def ingestTargetStub (uuid targetName : String) : Entity :=
  { id := uuid, name := targetName, entityType := "Concept", observations := [] }

/-! ### cosineSimilarity (`vector-manager.js`), JS numbers read as reals -/

open Classical in
/-- The accumulation loop runs over the common length `min |a| |b|`
(`zipWith` truncates exactly so), then guards both squared norms against
zero before dividing. -/
noncomputable def cosineSimilarity (vecA vecB : List ℝ) : ℝ :=
  let dot := (List.zipWith (fun x y => x * y) vecA vecB).sum
  let normA := (List.zipWith (fun x _ => x * x) vecA vecB).sum
  let normB := (List.zipWith (fun _ y => y * y) vecA vecB).sum
  if normA = 0 ∨ normB = 0 then 0 else dot / (Real.sqrt normA * Real.sqrt normB)

/-! ### Spec-side definitions (for the refinement claims)

These follow the specification's words, to be compared against the
definitions above, which follow the source. -/

/-- The spec's `dot(a, b)`, over the common length. -/
def dotList (a b : List ℝ) : ℝ := (List.zipWith (fun x y => x * y) a b).sum

/-- The Euclidean norm of the spec. -/
noncomputable def normList (a : List ℝ) : ℝ := Real.sqrt (dotList a a)

/-- First-seen deduplication: the "set union … preserving first-seen
order" of the spec, applied to the concatenation of both inputs. -/
def firstSeenDedup : List String → List String
  | [] => []
  | x :: xs => x :: firstSeenDedup (xs.filter (fun y => y ≠ x))
termination_by l => l.length
decreasing_by
  simp only [List.length_cons]
  exact Nat.lt_succ_of_le (List.length_filter_le _ _)

/-- The spec's observation merge for two `addEntity` calls. -/
def specObsUnion (obs1 obs2 : List String) : List String :=
  firstSeenDedup (obs1 ++ obs2)

/-- The URN shape required by the spec (`urn:uks:<namespace>:<type-slug>:<uuid>`). -/
def isUrnForm (s : String) : Bool := strStarts s "urn:uks:"

/-- The op `loadGraph` as the caller sees it (context validation included). -/
def loadGraphOp (st : Store) (ctxArg : CtxArg) : Except Err Graph :=
  (validateContext ctxArg).map (loadGraph st)

instance exceptDecEq {ε α : Type} [DecidableEq ε] [DecidableEq α] :
    DecidableEq (Except ε α) := fun x y =>
  match x, y with
  | .ok a, .ok b => if h : a = b then isTrue (by rw [h]) else isFalse (by simp [h])
  | .error a, .error b => if h : a = b then isTrue (by rw [h]) else isFalse (by simp [h])
  | .ok _, .error _ => isFalse (by simp)
  | .error _, .ok _ => isFalse (by simp)

/-! ### Store helper lemmas -/

theorem lookupFile_setFile (fs : List (String × Graph)) (c : String) (g : Graph) :
    lookupFile (setFile fs c g) c = some g := by
  unfold lookupFile setFile
  rw [List.find?_append]
  have h1 : (fs.filter (fun p => p.1 ≠ c)).find? (fun p => p.1 = c) = none := by
    rw [List.find?_eq_none]
    intro x hx
    have := List.of_mem_filter hx
    simpa using this
  simp [h1]

theorem setFile_setFile (fs : List (String × Graph)) (c : String) (g g' : Graph) :
    setFile (setFile fs c g) c g' = setFile fs c g' := by
  unfold setFile
  rw [List.filter_append]
  simp [List.filter_filter]

theorem createSnapshot_files (maxBackups : Nat) (st : Store) (ctx ts : String) :
    (createSnapshot maxBackups st ctx ts).files = st.files := by
  unfold createSnapshot
  cases lookupFile st.files ctx <;> rfl

theorem loadGraph_setFile (fs : List (String × Graph)) (bk : List BackupFile)
    (lk : Bool) (c : String) (g : Graph) :
    loadGraph ⟨setFile fs c g, bk, lk⟩ c = g := by
  unfold loadGraph
  rw [show (Store.mk (setFile fs c g) bk lk).files = setFile fs c g from rfl, lookupFile_setFile]
  rfl

/-! ### C1 -/

/-- C1: `updateGraph` is all-or-nothing. If the mutator raises, no backup
snapshot is created, the persisted graph file is unchanged, the error
propagates, and the lock is released: the final state is exactly the
initial one (which had the lock free). -/
theorem updateGraph_mutator_error_atomic {α : Type} (maxBackups : Nat) (st : Store)
    (ctxArg : CtxArg) (ctx ts : String) (f : Graph → Except Err (Graph × α)) (e : Err)
    (hctx : validateContext ctxArg = .ok ctx)
    (hlock : st.locked = false)
    (hf : f (loadGraph st ctx) = .error e) :
    updateGraphRun maxBackups st ctxArg ts f = (.error e, st) := by
  obtain ⟨fs, bk, lk⟩ := st
  simp only [Store.locked] at hlock
  subst hlock
  have hload : loadGraph ⟨fs, bk, true⟩ ctx = loadGraph ⟨fs, bk, false⟩ ctx := rfl
  simp only [updateGraphRun, hctx, hload, hf]
  simp

/-- Witness for C1 at a concrete store and mutator. -/
theorem updateGraph_mutator_error_atomic_witness :
    updateGraphRun (α := Unit) 5 ⟨[], [], false⟩ (.str "ctx1") "t1"
      (fun _ => .error (.other "boom")) = (.error (.other "boom"), ⟨[], [], false⟩) :=
  updateGraph_mutator_error_atomic 5 ⟨[], [], false⟩ (.str "ctx1") "ctx1" "t1"
    (fun _ => .error (.other "boom")) (.other "boom") rfl rfl rfl

/-! ### C3 -/

/-- C3: `addRelation` with an endpoint that resolves to no entity (by name
or id) fails with a NotFound condition and leaves the whole store — in
particular the persisted graph file and the backup directory — exactly as
it was. -/
theorem addRelation_missing_endpoint_notFound (maxBackups : Nat) (st : Store)
    (ctxArg : CtxArg) (ctx fromRef toRef relType ts ft tt rt : String)
    (hctx : validateContext ctxArg = .ok ctx)
    (hlock : st.locked = false)
    (hv1 : sanitizeStr fromRef "relation.from" 500 = .ok ft)
    (hv2 : sanitizeStr toRef "relation.to" 500 = .ok tt)
    (hv3 : requireStr relType "relation.relationType" = .ok rt)
    (hres : (loadGraph st ctx).entities.find?
              (fun e => e.name == fromRef || e.id == fromRef) = none
          ∨ (loadGraph st ctx).entities.find?
              (fun e => e.name == toRef || e.id == toRef) = none) :
    addRelation maxBackups st fromRef toRef relType ts ctxArg =
      (.error (.notFound ("Cannot link: Entity not found (" ++ fromRef ++ " or " ++ toRef ++ ")")),
        st) := by
  obtain ⟨fs, bk, lk⟩ := st
  simp only [Store.locked] at hlock
  subst hlock
  have hload : loadGraph ⟨fs, bk, true⟩ ctx = loadGraph ⟨fs, bk, false⟩ ctx := rfl
  have hmut : addRelationMutator fromRef toRef relType (loadGraph ⟨fs, bk, false⟩ ctx) =
      .error (.notFound ("Cannot link: Entity not found (" ++ fromRef ++ " or " ++ toRef ++ ")")) := by
    unfold addRelationMutator
    rcases hres with h | h
    · rw [h]
    · rw [h]
      cases (loadGraph ⟨fs, bk, false⟩ ctx).entities.find?
          (fun e => e.name == fromRef || e.id == fromRef) <;> rfl
  simp only [addRelation, hv1, hv2, hv3, updateGraphRun, hctx, hload, hmut]
  simp [Except.map]

/-- Helper: the success path of `updateGraphRun` spelled out. -/
theorem updateGraphRun_ok {α : Type} (maxBackups : Nat) (fs : List (String × Graph))
    (bk : List BackupFile) (ctxArg : CtxArg) (ctx ts : String)
    (f : Graph → Except Err (Graph × α)) (g' : Graph) (a : α)
    (hctx : validateContext ctxArg = .ok ctx)
    (hf : f (loadGraph ⟨fs, bk, false⟩ ctx) = .ok (g', a)) :
    updateGraphRun maxBackups ⟨fs, bk, false⟩ ctxArg ts f =
      (.ok a, ⟨setFile fs ctx g',
               (createSnapshot maxBackups ⟨fs, bk, true⟩ ctx ts).backups, false⟩) := by
  have hload : loadGraph ⟨fs, bk, true⟩ ctx = loadGraph ⟨fs, bk, false⟩ ctx := rfl
  simp only [updateGraphRun, hctx, hload, hf]
  have hfiles : (createSnapshot maxBackups ⟨fs, bk, true⟩ ctx ts).files = fs :=
    createSnapshot_files _ _ _ _
  simp [hfiles]

/-- Witness for C3: a store holding one entity `Redis`; linking `Redis`
to the nonexistent `Caching` fails NotFound and changes nothing. -/
theorem addRelation_missing_endpoint_notFound_witness :
    addRelation 5
      ⟨[("default", ⟨[⟨"id1", "Redis", "Database", ["Cache"]⟩], []⟩)], [], false⟩
      "Redis" "Caching" "supports" "t1" (.str "default") =
      (.error (.notFound "Cannot link: Entity not found (Redis or Caching)"),
        ⟨[("default", ⟨[⟨"id1", "Redis", "Database", ["Cache"]⟩], []⟩)], [], false⟩) := by
  have h := addRelation_missing_endpoint_notFound 5
    ⟨[("default", ⟨[⟨"id1", "Redis", "Database", ["Cache"]⟩], []⟩)], [], false⟩
    (.str "default") "default" "Redis" "Caching" "supports" "t1" "Redis" "Caching" "supports"
    rfl rfl rfl rfl rfl (Or.inr rfl)
  exact h

/-! ### C4 -/

/-- C4: `addRelation` is idempotent on `(resolved fromId, resolved toId,
relationType)`: with both endpoints resolving and no relation with that key
stored yet, adding the triple twice reports success both times, leaves
exactly one stored relation with the key, and the second call does not
change the stored graph file at all. -/
theorem addRelation_idempotent (maxBackups : Nat) (st : Store) (ctxArg : CtxArg)
    (ctx fromRef toRef relType ts1 ts2 ft tt rt : String) (fe te : Entity)
    (r1 r2 : Except Err Bool × Store)
    (hctx : validateContext ctxArg = .ok ctx)
    (hlock : st.locked = false)
    (hv1 : sanitizeStr fromRef "relation.from" 500 = .ok ft)
    (hv2 : sanitizeStr toRef "relation.to" 500 = .ok tt)
    (hv3 : requireStr relType "relation.relationType" = .ok rt)
    (hfe : (loadGraph st ctx).entities.find?
        (fun e => e.name == fromRef || e.id == fromRef) = some fe)
    (hte : (loadGraph st ctx).entities.find?
        (fun e => e.name == toRef || e.id == toRef) = some te)
    (hnone : (loadGraph st ctx).relations.countP (relKey fe.id te.id relType) = 0)
    (hr1 : r1 = addRelation maxBackups st fromRef toRef relType ts1 ctxArg)
    (hr2 : r2 = addRelation maxBackups r1.2 fromRef toRef relType ts2 ctxArg) :
    r1.1 = .ok true ∧ r2.1 = .ok true ∧
    (loadGraph r2.2 ctx).relations.countP (relKey fe.id te.id relType) = 1 ∧
    loadGraph r2.2 ctx = loadGraph r1.2 ctx ∧
    r2.2.files = r1.2.files := by
  subst hr2
  subst hr1
  obtain ⟨fs, bk, lk⟩ := st
  simp only [Store.locked] at hlock
  subst hlock
  have hany : (loadGraph ⟨fs, bk, false⟩ ctx).relations.any (relKey fe.id te.id relType)
      = false :=
    List.any_eq_false.mpr (List.countP_eq_zero.mp hnone)
  have hkey : relKey fe.id te.id relType ⟨fe.id, te.id, fe.name, te.name, relType⟩ = true := by
    simp [relKey]
  have hmut1 : addRelationMutator fromRef toRef relType (loadGraph ⟨fs, bk, false⟩ ctx) =
      .ok { loadGraph ⟨fs, bk, false⟩ ctx with
            relations := (loadGraph ⟨fs, bk, false⟩ ctx).relations ++
              [⟨fe.id, te.id, fe.name, te.name, relType⟩] } := by
    unfold addRelationMutator
    simp only [hfe, hte, hany]
    rfl
  have hrun1 : addRelation maxBackups ⟨fs, bk, false⟩ fromRef toRef relType ts1 ctxArg =
      (.ok true, ⟨setFile fs ctx { loadGraph ⟨fs, bk, false⟩ ctx with
          relations := (loadGraph ⟨fs, bk, false⟩ ctx).relations ++
            [⟨fe.id, te.id, fe.name, te.name, relType⟩] },
        (createSnapshot maxBackups ⟨fs, bk, true⟩ ctx ts1).backups, false⟩) := by
    simp only [addRelation, hv1, hv2, hv3]
    exact updateGraphRun_ok maxBackups fs bk ctxArg ctx ts1 _ _ true hctx
      (by rw [hmut1]; rfl)
  -- abbreviations for the post-first-call state
  generalize hg1 : ({ loadGraph ⟨fs, bk, false⟩ ctx with
      relations := (loadGraph ⟨fs, bk, false⟩ ctx).relations ++
        [⟨fe.id, te.id, fe.name, te.name, relType⟩] } : Graph) = g1 at hrun1
  generalize hbk1 : (createSnapshot maxBackups ⟨fs, bk, true⟩ ctx ts1).backups = bk1 at hrun1
  have hload1 : loadGraph ⟨setFile fs ctx g1, bk1, false⟩ ctx = g1 :=
    loadGraph_setFile fs bk1 false ctx g1
  have hany2 : g1.relations.any (relKey fe.id te.id relType) = true := by
    rw [← hg1]
    simp only [List.any_append, hany, hkey, List.any_cons, List.any_nil]
    rfl
  have hfe1 : g1.entities.find? (fun e => e.name == fromRef || e.id == fromRef) = some fe := by
    rw [← hg1]; exact hfe
  have hte1 : g1.entities.find? (fun e => e.name == toRef || e.id == toRef) = some te := by
    rw [← hg1]; exact hte
  have hmut2 : addRelationMutator fromRef toRef relType g1 = .ok g1 := by
    unfold addRelationMutator
    simp only [hfe1, hte1, hany2]
    rfl
  have hrun2 : addRelation maxBackups ⟨setFile fs ctx g1, bk1, false⟩
      fromRef toRef relType ts2 ctxArg =
      (.ok true, ⟨setFile (setFile fs ctx g1) ctx g1,
        (createSnapshot maxBackups ⟨setFile fs ctx g1, bk1, true⟩ ctx ts2).backups, false⟩) := by
    simp only [addRelation, hv1, hv2, hv3]
    exact updateGraphRun_ok maxBackups (setFile fs ctx g1) bk1 ctxArg ctx ts2 _ g1 true hctx
      (by rw [show loadGraph ⟨setFile fs ctx g1, bk1, false⟩ ctx = g1 from hload1, hmut2]; rfl)
  simp only [hrun1]
  simp only [hrun2]
  have hload2 : ∀ b : List BackupFile,
      loadGraph ⟨setFile (setFile fs ctx g1) ctx g1, b, false⟩ ctx = g1 := by
    intro b
    rw [setFile_setFile]
    exact loadGraph_setFile fs b false ctx g1
  refine ⟨trivial, trivial, ?_, ?_, ?_⟩
  · rw [hload2 _, ← hg1]
    simp only [List.countP_append, hnone]
    simp [List.countP_cons, hkey]
  · rw [hload2 _, hload1]
  · show setFile (setFile fs ctx g1) ctx g1 = setFile fs ctx g1
    exact setFile_setFile fs ctx g1 g1

/-- Witness for C4 at a concrete two-entity store. -/
theorem addRelation_idempotent_witness :
    ((addRelation 5 ⟨[("default", ⟨[⟨"idR", "Redis", "Database", []⟩,
        ⟨"idC", "Caching", "Concept", []⟩], []⟩)], [], false⟩
        "Redis" "Caching" "supports" "t1" (.str "default")).1 = .ok true) ∧
    ((addRelation 5 (addRelation 5 ⟨[("default", ⟨[⟨"idR", "Redis", "Database", []⟩,
        ⟨"idC", "Caching", "Concept", []⟩], []⟩)], [], false⟩
        "Redis" "Caching" "supports" "t1" (.str "default")).2
        "Redis" "Caching" "supports" "t2" (.str "default")).1 = .ok true) ∧
    ((loadGraph (addRelation 5 (addRelation 5 ⟨[("default", ⟨[⟨"idR", "Redis", "Database", []⟩,
        ⟨"idC", "Caching", "Concept", []⟩], []⟩)], [], false⟩
        "Redis" "Caching" "supports" "t1" (.str "default")).2
        "Redis" "Caching" "supports" "t2" (.str "default")).2 "default").relations.countP
        (relKey "idR" "idC" "supports") = 1) := by
  have h := addRelation_idempotent 5
    ⟨[("default", ⟨[⟨"idR", "Redis", "Database", []⟩, ⟨"idC", "Caching", "Concept", []⟩], []⟩)],
      [], false⟩
    (.str "default") "default" "Redis" "Caching" "supports" "t1" "t2"
    "Redis" "Caching" "supports"
    ⟨"idR", "Redis", "Database", []⟩ ⟨"idC", "Caching", "Concept", []⟩
    _ _ rfl rfl rfl rfl rfl rfl rfl rfl rfl rfl
  exact ⟨h.1, h.2.1, h.2.2.1⟩

/-! ### C2 -/

theorem find?_name_none (name : String) (l : List Entity)
    (h : ∀ e ∈ l, e.name ≠ name) : l.find? (fun e => e.name == name) = none :=
  List.find?_eq_none.mpr (fun e he => by simpa using h e he)

theorem filter_name_none (name : String) (l : List Entity)
    (h : ∀ e ∈ l, e.name ≠ name) : l.filter (fun e => e.name == name) = [] :=
  List.filter_eq_nil_iff.mpr (fun e he => by simpa using h e he)

theorem mergeFirstEntity_append_of_none (name : String) (obs : List String)
    (l1 l2 : List Entity) (h : ∀ e ∈ l1, e.name ≠ name) :
    mergeFirstEntity name obs (l1 ++ l2) = l1 ++ mergeFirstEntity name obs l2 := by
  induction l1 with
  | nil => rfl
  | cons e rest ih =>
      have hne : (e.name == name) = false := beq_false_of_ne (h e (.head _))
      simp only [List.cons_append, mergeFirstEntity, hne, Bool.false_eq_true, if_false,
        List.cons.injEq, true_and]
      exact ih (fun e' he' => h e' (.tail _ he'))

theorem firstSeenDedup_nodup_eq : ∀ l : List String, l.Nodup → firstSeenDedup l = l
  | [], _ => by simp [firstSeenDedup]
  | x :: xs, h => by
      have hx : xs.filter (fun y => y ≠ x) = xs :=
        List.filter_eq_self.mpr (fun y hy => by
          have : y ≠ x := fun hEq => (List.nodup_cons.mp h).1 (hEq ▸ hy)
          simpa using this)
      simp only [firstSeenDedup, hx]
      rw [firstSeenDedup_nodup_eq xs (List.nodup_cons.mp h).2]

theorem firstSeenDedup_append_left : ∀ (obs1 obs2 : List String), obs1.Nodup →
    firstSeenDedup (obs1 ++ obs2) =
      obs1 ++ firstSeenDedup (obs2.filter (fun o => !obs1.contains o))
  | [], obs2, _ => by simp
  | x :: xs, obs2, h => by
      have hxs : x ∉ xs := (List.nodup_cons.mp h).1
      have hfx : xs.filter (fun y => y ≠ x) = xs :=
        List.filter_eq_self.mpr (fun y hy => by
          have : y ≠ x := fun hEq => hxs (hEq ▸ hy)
          simpa using this)
      simp only [List.cons_append, firstSeenDedup, List.filter_append, hfx]
      rw [firstSeenDedup_append_left xs (obs2.filter (fun y => y ≠ x))
        (List.nodup_cons.mp h).2]
      simp only [List.cons.injEq, true_and, List.append_cancel_left_eq]
      rw [List.filter_filter]
      have hpred : ∀ o ∈ obs2,
          (!xs.contains o && decide (o ≠ x)) = (!(x :: xs).contains o) := by
        intro o _
        cases hc : (xs.contains o) <;> cases hd : (o == x) <;>
          simp_all [List.contains_cons, hc, hd]
      rw [List.filter_congr hpred]

theorem mergeObs_eq_specObsUnion (obs1 obs2 : List String)
    (h1 : obs1.Nodup) (h2 : obs2.Nodup) :
    mergeObs obs1 obs2 = specObsUnion obs1 obs2 := by
  rw [specObsUnion, firstSeenDedup_append_left obs1 obs2 h1,
    firstSeenDedup_nodup_eq _ (h2.filter _)]
  rfl

/-- C2 counterexample: with duplicate observations inside a single call's
input (`["a", "a"]` twice), the stored list is `["a", "a"]`, while the
set union of both calls' inputs in first-seen order is `["a"]`. -/
theorem addEntity_dup_obs_counterexample :
    ((loadGraph (addEntity 5 (addEntity 5 ⟨[], [], false⟩ "X" none ["a", "a"] "u1" "t1"
        (.str "c")).2 "X" none ["a", "a"] "u2" "t2" (.str "c")).2 "c").entities.map
      (fun e => e.observations) = [["a", "a"]]) ∧
    specObsUnion ["a", "a"] ["a", "a"] = ["a"] ∧
    (["a", "a"] : List String) ≠ ["a"] := by
  refine ⟨by decide, ?_, by decide⟩
  simp [specObsUnion, firstSeenDedup]

/-- C2 (amended): two `addEntity` calls with the same (previously unseen)
name leave exactly one stored record with that name; its id is the one the
first call minted and the second call returns that same id; its
observations are the first call's list followed by the second call's
observations not already present. Consequently the result contains an
observation iff one of the two inputs did (set union, nothing removed),
and whenever each call's input has no internal duplicates it is exactly
the spec's first-seen-order set union. -/
theorem addEntity_upsert_by_name (maxBackups : Nat) (st : Store) (ctxArg : CtxArg)
    (ctx name ts1 ts2 u1 u2 nt : String) (et1 et2 : Option String)
    (obs1 obs2 : List String) (r1 r2 : Except Err String × Store)
    (hctx : validateContext ctxArg = .ok ctx)
    (hlock : st.locked = false)
    (hv : sanitizeStr name "entity.name" 500 = .ok nt)
    (habsent : ∀ e ∈ (loadGraph st ctx).entities, e.name ≠ name)
    (hr1 : r1 = addEntity maxBackups st name et1 obs1 u1 ts1 ctxArg)
    (hr2 : r2 = addEntity maxBackups r1.2 name et2 obs2 u2 ts2 ctxArg) :
    r1.1 = .ok (mkUrn et1 u1) ∧
    r2.1 = .ok (mkUrn et1 u1) ∧
    (loadGraph r2.2 ctx).entities.filter (fun e => e.name == name) =
      [⟨mkUrn et1 u1, name, flavorOf et1, mergeObs obs1 obs2⟩] ∧
    (∀ o, o ∈ mergeObs obs1 obs2 ↔ o ∈ obs1 ∨ o ∈ obs2) ∧
    (∃ t, mergeObs obs1 obs2 = obs1 ++ t) ∧
    (obs1.Nodup → obs2.Nodup → mergeObs obs1 obs2 = specObsUnion obs1 obs2) := by
  subst hr2
  subst hr1
  obtain ⟨fs, bk, lk⟩ := st
  simp only [Store.locked] at hlock
  subst hlock
  have hfind0 : (loadGraph ⟨fs, bk, false⟩ ctx).entities.find?
      (fun e => e.name == name) = none := find?_name_none name _ habsent
  have hmut1 : addEntityMutator name et1 obs1 u1 (loadGraph ⟨fs, bk, false⟩ ctx) =
      ({ loadGraph ⟨fs, bk, false⟩ ctx with
          entities := (loadGraph ⟨fs, bk, false⟩ ctx).entities ++
            [⟨mkUrn et1 u1, name, flavorOf et1, obs1⟩] }, mkUrn et1 u1) := by
    unfold addEntityMutator
    simp only [hfind0]
  have hrun1 : addEntity maxBackups ⟨fs, bk, false⟩ name et1 obs1 u1 ts1 ctxArg =
      (.ok (mkUrn et1 u1), ⟨setFile fs ctx { loadGraph ⟨fs, bk, false⟩ ctx with
          entities := (loadGraph ⟨fs, bk, false⟩ ctx).entities ++
            [⟨mkUrn et1 u1, name, flavorOf et1, obs1⟩] },
        (createSnapshot maxBackups ⟨fs, bk, true⟩ ctx ts1).backups, false⟩) := by
    simp only [addEntity, hv]
    exact updateGraphRun_ok maxBackups fs bk ctxArg ctx ts1 _ _ (mkUrn et1 u1) hctx
      (by rw [show (Except.ok (addEntityMutator name et1 obs1 u1
          (loadGraph ⟨fs, bk, false⟩ ctx)) : Except Err (Graph × String)) =
            .ok (addEntityMutator name et1 obs1 u1 (loadGraph ⟨fs, bk, false⟩ ctx))
          from rfl, hmut1])
  generalize hg1 : ({ loadGraph ⟨fs, bk, false⟩ ctx with
      entities := (loadGraph ⟨fs, bk, false⟩ ctx).entities ++
        [⟨mkUrn et1 u1, name, flavorOf et1, obs1⟩] } : Graph) = g1 at hrun1
  generalize hbk1 : (createSnapshot maxBackups ⟨fs, bk, true⟩ ctx ts1).backups = bk1 at hrun1
  have hload1 : loadGraph ⟨setFile fs ctx g1, bk1, false⟩ ctx = g1 :=
    loadGraph_setFile fs bk1 false ctx g1
  have hfind1 : g1.entities.find? (fun e => e.name == name) =
      some ⟨mkUrn et1 u1, name, flavorOf et1, obs1⟩ := by
    rw [← hg1]
    show (List.find? (fun e => e.name == name)
        ((loadGraph ⟨fs, bk, false⟩ ctx).entities ++
          [(⟨mkUrn et1 u1, name, flavorOf et1, obs1⟩ : Entity)])) = _
    rw [List.find?_append, hfind0]
    simp [List.find?]
  have hmerge1 : mergeFirstEntity name obs2 g1.entities =
      (loadGraph ⟨fs, bk, false⟩ ctx).entities ++
        [⟨mkUrn et1 u1, name, flavorOf et1, mergeObs obs1 obs2⟩] := by
    rw [← hg1]
    show mergeFirstEntity name obs2 ((loadGraph ⟨fs, bk, false⟩ ctx).entities ++
        [(⟨mkUrn et1 u1, name, flavorOf et1, obs1⟩ : Entity)]) = _
    rw [mergeFirstEntity_append_of_none name obs2 _ _ habsent]
    simp [mergeFirstEntity]
  have hmut2 : addEntityMutator name et2 obs2 u2 g1 =
      ({ g1 with entities := (loadGraph ⟨fs, bk, false⟩ ctx).entities ++
          [⟨mkUrn et1 u1, name, flavorOf et1, mergeObs obs1 obs2⟩] }, mkUrn et1 u1) := by
    unfold addEntityMutator
    simp only [hfind1, hmerge1]
  have hrun2 : addEntity maxBackups ⟨setFile fs ctx g1, bk1, false⟩ name et2 obs2 u2 ts2 ctxArg =
      (.ok (mkUrn et1 u1), ⟨setFile (setFile fs ctx g1) ctx
          { g1 with entities := (loadGraph ⟨fs, bk, false⟩ ctx).entities ++
              [⟨mkUrn et1 u1, name, flavorOf et1, mergeObs obs1 obs2⟩] },
        (createSnapshot maxBackups ⟨setFile fs ctx g1, bk1, true⟩ ctx ts2).backups, false⟩) := by
    simp only [addEntity, hv]
    exact updateGraphRun_ok maxBackups (setFile fs ctx g1) bk1 ctxArg ctx ts2 _ _
      (mkUrn et1 u1) hctx (by rw [hload1]; rw [hmut2])
  simp only [hrun1]
  simp only [hrun2]
  refine ⟨trivial, trivial, ?_, ?_, ?_, mergeObs_eq_specObsUnion obs1 obs2⟩
  · rw [setFile_setFile]
    rw [show loadGraph ⟨setFile fs ctx
        { g1 with entities := (loadGraph ⟨fs, bk, false⟩ ctx).entities ++
            [⟨mkUrn et1 u1, name, flavorOf et1, mergeObs obs1 obs2⟩] },
        (createSnapshot maxBackups ⟨setFile fs ctx g1, bk1, true⟩ ctx ts2).backups, false⟩ ctx =
        { g1 with entities := (loadGraph ⟨fs, bk, false⟩ ctx).entities ++
            [⟨mkUrn et1 u1, name, flavorOf et1, mergeObs obs1 obs2⟩] }
      from loadGraph_setFile _ _ _ _ _]
    show (List.filter (fun e => e.name == name)
        ((loadGraph ⟨fs, bk, false⟩ ctx).entities ++
          [(⟨mkUrn et1 u1, name, flavorOf et1, mergeObs obs1 obs2⟩ : Entity)])) = _
    rw [List.filter_append, filter_name_none name _ habsent]
    simp
  · intro o
    simp only [mergeObs, List.mem_append, List.mem_filter]
    constructor
    · rintro (h | ⟨h, _⟩)
      · exact Or.inl h
      · exact Or.inr h
    · rintro (h | h)
      · exact Or.inl h
      · by_cases hmem : o ∈ obs1
        · exact Or.inl hmem
        · refine Or.inr ⟨h, ?_⟩
          simp [hmem]
  · exact ⟨obs2.filter (fun o => !obs1.contains o), rfl⟩

/-- Witness for the amended C2 at a concrete store. -/
theorem addEntity_upsert_by_name_witness :
    ((addEntity 5 ⟨[], [], false⟩ "Redis" (some "Database") ["Cache"] "u1" "t1"
        (.str "default")).1 = .ok (mkUrn (some "Database") "u1")) ∧
    ((addEntity 5 (addEntity 5 ⟨[], [], false⟩ "Redis" (some "Database") ["Cache"] "u1" "t1"
        (.str "default")).2 "Redis" none ["KV-Store"] "u2" "t2" (.str "default")).1 =
      .ok (mkUrn (some "Database") "u1")) ∧
    ((loadGraph (addEntity 5 (addEntity 5 ⟨[], [], false⟩ "Redis" (some "Database") ["Cache"]
        "u1" "t1" (.str "default")).2 "Redis" none ["KV-Store"] "u2" "t2"
        (.str "default")).2 "default").entities.filter (fun e => e.name == "Redis") =
      [⟨mkUrn (some "Database") "u1", "Redis", flavorOf (some "Database"),
        mergeObs ["Cache"] ["KV-Store"]⟩]) := by
  have h := addEntity_upsert_by_name 5 ⟨[], [], false⟩ (.str "default") "default" "Redis"
    "t1" "t2" "u1" "u2" "Redis" (some "Database") none ["Cache"] ["KV-Store"] _ _
    rfl rfl rfl (by intro e he; cases he) rfl rfl
  exact ⟨h.1, h.2.1, h.2.2.1⟩

/-! ### C6 -/

/-- Number of retained backup files whose provenance is context `c`. -/
def backupCountFor (c : String) (bs : List BackupFile) : Nat :=
  bs.countP (fun b => b.ctx == c)

theorem pfxChars_append : ∀ p r : List Char, pfxChars p (p ++ r) = true
  | [], _ => rfl
  | a :: as, r => by simp [pfxChars, pfxChars_append as r]

theorem pfxChars_of_eq_append (p q r : List Char) (h : q = p ++ r) :
    pfxChars p q = true := h ▸ pfxChars_append p r

theorem backupMatches_self (b : BackupFile) : backupMatches b.ctx b = true := by
  apply pfxChars_of_eq_append _ _ (b.ts.data ++ ".jsonl".data)
  simp [BackupFile.fname, String.data_append]

theorem backupCountFor_le_matching (c : String) (bs : List BackupFile) :
    backupCountFor c bs ≤ (bs.filter (backupMatches c)).length := by
  rw [← List.countP_eq_length_filter]
  apply List.countP_mono_left
  intro b _ hbc
  have hc : b.ctx = c := by simpa using hbc
  exact hc ▸ backupMatches_self b

theorem countP_split {α : Type} (p q : α → Bool) (l : List α) :
    l.countP p = (l.filter q).countP p + (l.filter (fun a => ¬ q a)).countP p := by
  induction l with
  | nil => rfl
  | cons a t ih =>
      cases hq : q a <;> cases hp : p a <;>
        simp [List.countP_cons, List.filter_cons, hq, hp, ih] <;> omega

theorem backupCountFor_prune_self_le (maxB : Nat) (ctx : String) (bs : List BackupFile) :
    backupCountFor ctx (pruneBackups maxB ctx bs) ≤ maxB := by
  unfold pruneBackups
  by_cases hx : (bs.filter (backupMatches ctx)).length > maxB
  · simp only [hx, if_true]
    rw [backupCountFor, List.countP_append]
    have h1 : (bs.filter (fun b => ¬ backupMatches ctx b)).countP (fun b => b.ctx == ctx) = 0 := by
      rw [List.countP_eq_zero]
      intro b hb hbeq
      have hmem := List.mem_filter.mp hb
      have hc : b.ctx = ctx := by simpa using hbeq
      have : backupMatches ctx b = true := hc ▸ backupMatches_self b
      simp [this] at hmem
    have h2 : ((sortBackupsDesc (bs.filter (backupMatches ctx))).take maxB).countP
        (fun b => b.ctx == ctx) ≤ maxB :=
      le_trans (List.countP_le_length _) (List.length_take_le maxB _)
    omega
  · simp only [hx, if_false]
    exact le_trans (backupCountFor_le_matching ctx bs) (by omega)

theorem backupCountFor_prune_le (maxB : Nat) (ctx c : String) (bs : List BackupFile) :
    backupCountFor c (pruneBackups maxB ctx bs) ≤ backupCountFor c bs := by
  unfold pruneBackups
  by_cases hx : (bs.filter (backupMatches ctx)).length > maxB
  · simp only [hx, if_true]
    rw [backupCountFor, List.countP_append]
    have htake : ((sortBackupsDesc (bs.filter (backupMatches ctx))).take maxB).countP
        (fun b => b.ctx == c) ≤
        (sortBackupsDesc (bs.filter (backupMatches ctx))).countP (fun b => b.ctx == c) :=
      List.Sublist.countP_le _ (List.take_sublist _ _)
    have hsort : (sortBackupsDesc (bs.filter (backupMatches ctx))).countP
        (fun b => b.ctx == c) =
        (bs.filter (backupMatches ctx)).countP (fun b => b.ctx == c) :=
      List.Perm.countP_eq _ (List.perm_insertionSort _ _)
    have hsplit := countP_split (fun b : BackupFile => b.ctx == c) (backupMatches ctx) bs
    rw [backupCountFor, hsplit]
    omega
  · simp only [hx, if_false]
    exact le_refl _

theorem backupCountFor_createSnapshot_le (maxB : Nat) (st : Store) (ctx ts c : String)
    (hc : backupCountFor c st.backups ≤ maxB) :
    backupCountFor c (createSnapshot maxB st ctx ts).backups ≤ maxB := by
  unfold createSnapshot
  cases hl : lookupFile st.files ctx with
  | none => exact hc
  | some g =>
      simp only
      by_cases hceq : c = ctx
      · subst hceq
        exact backupCountFor_prune_self_le maxB c _
      · refine le_trans (backupCountFor_prune_le maxB ctx c _) (le_trans ?_ hc)
        rw [backupCountFor, List.countP_append]
        have hnb : (([⟨ctx, ts, g⟩] : List BackupFile)).countP (fun b => b.ctx == c) = 0 := by
          have hne : (ctx == c) = false := beq_false_of_ne (fun h => hceq h.symm)
          simp [List.countP_cons, hne]
        rw [hnb]
        simpa [backupCountFor] using
          List.Sublist.countP_le (fun b : BackupFile => b.ctx == c) (List.filter_sublist _)

/-- C6: after any write transaction the number of retained backups for
every context stays within the configured retention limit (the limit is 5
by default, `defaultMaxBackups`), and pruning removes oldest-first: every
file a prune deletes sorts at or below every matching file it keeps. -/
theorem backup_retention_bound {α : Type} (maxB : Nat) (st : Store) (ctxArg : CtxArg)
    (ts : String) (f : Graph → Except Err (Graph × α)) (c : String)
    (hinv : ∀ c', backupCountFor c' st.backups ≤ maxB) :
    (backupCountFor c (updateGraphRun maxB st ctxArg ts f).2.backups ≤ maxB) ∧
    (∀ (bs : List BackupFile) (ctx : String),
      ∀ d ∈ (sortBackupsDesc (bs.filter (backupMatches ctx))).drop maxB,
      ∀ k ∈ (sortBackupsDesc (bs.filter (backupMatches ctx))).take maxB,
        strLe d.fname k.fname = true) := by
  constructor
  · rcases hval : validateContext ctxArg with e | ctx
    · simp only [updateGraphRun, hval]
      exact hinv c
    · obtain ⟨fs, bk, lk⟩ := st
      cases lk
      case true =>
        simp only [updateGraphRun, hval, if_true]
        simpa using hinv c
      case false =>
        rcases hf : f (loadGraph ⟨fs, bk, true⟩ ctx) with e | pr
        · simp only [updateGraphRun, hval, hf]
          simpa using hinv c
        · obtain ⟨g, a⟩ := pr
          simp only [updateGraphRun, hval, hf]
          simpa using backupCountFor_createSnapshot_le maxB ⟨fs, bk, true⟩ ctx ts c (hinv c)
  · intro bs ctx d hd k hk
    have hs : List.Pairwise newerFirst (sortBackupsDesc (bs.filter (backupMatches ctx))) :=
      List.sorted_insertionSort _ _
    rw [← List.take_append_drop maxB (sortBackupsDesc (bs.filter (backupMatches ctx)))] at hs
    exact (List.pairwise_append.mp hs).2.2 k hk d hd

/-- Witness for C6: one prior backup, a successful write; the bound 5 holds. -/
theorem backup_retention_bound_witness :
    backupCountFor "default"
      (updateGraphRun (α := Unit) 5
        ⟨[("default", ⟨[], []⟩)], [⟨"default", "t0", ⟨[], []⟩⟩], false⟩
        (.str "default") "t1" (fun g => .ok (g, ()))).2.backups ≤ 5 :=
  (backup_retention_bound 5 ⟨[("default", ⟨[], []⟩)], [⟨"default", "t0", ⟨[], []⟩⟩], false⟩
    (.str "default") "t1" (fun g => .ok (g, ())) "default"
    (fun c' => le_trans (List.countP_le_length _) (by norm_num))).1

/-! ### C7 -/

theorem lexLe_refl : ∀ as : List Char, lexLe as as = true
  | [] => rfl
  | a :: as => by simp [lexLe, lexLe_refl as]

/-- C7: `undo` with no backups for the context fails NotFound and changes
nothing; otherwise it copies the newest matching backup (its file name is
maximal among all matching backups) byte-for-byte over the graph file. -/
theorem undo_restores_latest (st : Store) (ctxArg : CtxArg) (ctx : String)
    (hctx : validateContext ctxArg = .ok ctx)
    (hlock : st.locked = false) :
    (st.backups.filter (backupMatches ctx) = [] →
        undo st ctxArg = (.error (.notFound "No backups found to restore."), st)) ∧
    (∀ b rest, sortBackupsDesc (st.backups.filter (backupMatches ctx)) = b :: rest →
        undo st ctxArg = (.ok b.fname, ⟨setFile st.files ctx b.content, st.backups, false⟩) ∧
        lookupFile (undo st ctxArg).2.files ctx = some b.content ∧
        ∀ b' ∈ st.backups.filter (backupMatches ctx), strLe b'.fname b.fname = true) := by
  obtain ⟨fs, bk, lk⟩ := st
  simp only [Store.locked] at hlock
  subst hlock
  have hbk : (Store.mk fs bk true).backups = bk := rfl
  constructor
  · intro hempty
    have hsorted : sortBackupsDesc ((Store.mk fs bk true).backups.filter (backupMatches ctx))
        = [] := by
      rw [hbk, hempty]
      rfl
    simp only [undo, hctx, restoreLatest, hsorted]
    simp
  · intro b rest hsort
    have hsorted : sortBackupsDesc ((Store.mk fs bk true).backups.filter (backupMatches ctx))
        = b :: rest := hsort
    have hundo : undo ⟨fs, bk, false⟩ ctxArg =
        (.ok b.fname, ⟨setFile fs ctx b.content, bk, false⟩) := by
      simp only [undo, hctx, restoreLatest, hsorted]
      simp
    refine ⟨hundo, ?_, ?_⟩
    · rw [hundo]
      exact lookupFile_setFile fs ctx b.content
    · intro b' hb'
      have hperm : List.Perm (sortBackupsDesc (bk.filter (backupMatches ctx)))
          (bk.filter (backupMatches ctx)) := List.perm_insertionSort _ _
      have hmem : b' ∈ sortBackupsDesc (bk.filter (backupMatches ctx)) :=
        hperm.mem_iff.mpr hb'
      rw [hsort] at hmem
      rcases List.mem_cons.mp hmem with hEq | hmemr
      · rw [hEq]
        exact lexLe_refl _
      · have hs : List.Sorted newerFirst (sortBackupsDesc (bk.filter (backupMatches ctx))) :=
          List.sorted_insertionSort _ _
        rw [hsort] at hs
        exact List.rel_of_sorted_cons hs b' hmemr

/-- Witness for C7: both the restore case and the no-backup case at
concrete stores. -/
theorem undo_restores_latest_witness :
    (undo ⟨[], [⟨"default", "t0", ⟨[⟨"i", "n", "t", []⟩], []⟩⟩], false⟩ (.str "default") =
      (.ok (BackupFile.fname ⟨"default", "t0", ⟨[⟨"i", "n", "t", []⟩], []⟩⟩),
       ⟨setFile [] "default" ⟨[⟨"i", "n", "t", []⟩], []⟩,
        [⟨"default", "t0", ⟨[⟨"i", "n", "t", []⟩], []⟩⟩], false⟩)) ∧
    (undo ⟨[], [], false⟩ (.str "other") =
      (.error (.notFound "No backups found to restore."), ⟨[], [], false⟩)) :=
  ⟨((undo_restores_latest ⟨[], [⟨"default", "t0", ⟨[⟨"i", "n", "t", []⟩], []⟩⟩], false⟩
      (.str "default") "default" rfl rfl).2
      ⟨"default", "t0", ⟨[⟨"i", "n", "t", []⟩], []⟩⟩ [] rfl).1,
   (undo_restores_latest ⟨[], [], false⟩ (.str "other") "other" rfl rfl).1 rfl⟩

/-! ### C8: the concrete §8 scenario

Timestamps `t1 < t2 < … < t5` stand for the successive ISO timestamps the
five write attempts would draw; `u1`, `u2` for the two `randomUUID` draws.
Each `addEntity`/`addRelation` call is one transaction of its own. -/

def sc1 : Except Err String × Store :=
  addEntity defaultMaxBackups ⟨[], [], false⟩ "Redis" (some "Database") ["Cache"]
    "u1" "t1" (.str "default")

def sc2 : Except Err String × Store :=
  addEntity defaultMaxBackups sc1.2 "Redis" none ["KV-Store"] "uX" "t2" (.str "default")

def sc3 : Except Err Bool × Store :=
  addRelation defaultMaxBackups sc2.2 "Redis" "Caching" "supports" "t3" (.str "default")

def sc4 : Except Err String × Store :=
  addEntity defaultMaxBackups sc3.2 "Caching" (some "Concept") [] "u2" "t4" (.str "default")

def sc5 : Except Err Bool × Store :=
  addRelation defaultMaxBackups sc4.2 "Redis" "Caching" "supports" "t5" (.str "default")

def sc6 : Except Err (List Entity × List Relation) := search sc5.2 "Cache" (.str "default")

def sc7 : Except Err String × Store := undo sc5.2 (.str "default")

/-- The graph persisted after the single `undo()`. -/
def scFinal : Graph := loadGraph sc7.2 "default"

/-- C8 counterexample: in the §8 scenario the single `undo()` does NOT
leave "only Redis with observations [\"Cache\"]": the Caching entity is
still stored and Redis keeps both observations; only the relation (the
last transaction) is gone. -/
theorem scenario_undo_counterexample :
    (scFinal.entities.map (fun e => e.name) = ["Redis", "Caching"]) ∧
    ((scFinal.entities.filter (fun e => e.name == "Redis")).map
      (fun e => e.observations) = [["Cache", "KV-Store"]]) ∧
    scFinal.relations = [] := by
  refine ⟨?_, ?_, ?_⟩ <;> decide

/-- C8 (amended): the scenario runs as described (same id from both Redis
adds, NotFound on the early `addRelation`, success later), but the single
`undo()` rolls back only the last transaction — the successful
`addRelation` — restoring the snapshot that still contains the Caching
entity and Redis with observations `["Cache", "KV-Store"]`; only the
relation is removed. -/
theorem scenario_undo_rolls_back_last_transaction :
    (sc1.1 = .ok "urn:uks:local:database:u1") ∧
    (sc2.1 = .ok "urn:uks:local:database:u1") ∧
    (sc3.1 = .error (.notFound "Cannot link: Entity not found (Redis or Caching)")) ∧
    (sc5.1 = .ok true) ∧
    (scFinal = loadGraph sc4.2 "default") ∧
    (scFinal.entities = [⟨"urn:uks:local:database:u1", "Redis", "Database",
        ["Cache", "KV-Store"]⟩,
      ⟨"urn:uks:local:concept:u2", "Caching", "Concept", []⟩]) ∧
    (scFinal.relations = []) := by
  refine ⟨?_, ?_, ?_, ?_, ?_, ?_, ?_⟩ <;> decide

/-! ### C5 -/

/-- C5 counterexample: the ingest pipeline's auto-vivified relation-target
stub takes `crypto.randomUUID()` itself as its id — at the concrete draw
`f47ac10b-…` the stored id is the bare UUID and has no `urn:uks:` prefix. -/
theorem ingest_stub_id_not_urn :
    (isUrnForm (ingestTargetStub "f47ac10b-58cc-4372-a567-0e02b2c3d479" "Caching").id
      = false) ∧
    ((ingestTargetStub "f47ac10b-58cc-4372-a567-0e02b2c3d479" "Caching").id =
      "f47ac10b-58cc-4372-a567-0e02b2c3d479") := by
  refine ⟨?_, rfl⟩
  decide

/-- C5 (amended): ids minted by `addEntity` do have the URN form
`urn:uks:local:<type-slug>:<uuid>` and are generated once — a merge into an
existing record keeps every stored id unchanged and returns the existing
id. The ingest pipeline's auto-vivified target stubs, however, get the
bare UUID draw as their id, which is not in URN form. -/
theorem entity_id_policy :
    (∀ (et : Option String) (uuid : String), isUrnForm (mkUrn et uuid) = true) ∧
    (∀ (name : String) (et : Option String) (obs : List String) (uuid : String)
        (g : Graph) (ex : Entity),
        g.entities.find? (fun e => e.name == name) = some ex →
        (addEntityMutator name et obs uuid g).2 = ex.id) ∧
    (∀ (name : String) (obs : List String) (es : List Entity),
        (mergeFirstEntity name obs es).map (fun e => e.id) = es.map (fun e => e.id)) ∧
    (∀ (uuid targetName : String), (ingestTargetStub uuid targetName).id = uuid) := by
  refine ⟨?_, ?_, ?_, fun _ _ => rfl⟩
  · intro et uuid
    apply pfxChars_of_eq_append _ _
      (("local:" : String).data ++ (cleanFlavor et).data ++ (":" : String).data ++ uuid.data)
    have hsplit : ("urn:uks:local:" : String).data =
        ("urn:uks:" : String).data ++ ("local:" : String).data := by decide
    simp [mkUrn, String.data_append, hsplit, List.append_assoc]
  · intro name et obs uuid g ex hfind
    unfold addEntityMutator
    simp only [hfind]
  · intro name obs es
    induction es with
    | nil => rfl
    | cons e rest ih =>
        by_cases h : (e.name == name) = true
        · simp [mergeFirstEntity, h]
        · simp only [mergeFirstEntity, h, Bool.false_eq_true, if_false, List.map_cons, ih]

/-- Witness for the amended C5. -/
theorem entity_id_policy_witness :
    (isUrnForm (mkUrn (some "Database") "u1") = true) ∧
    ((addEntityMutator "X" none [] "u9" ⟨[⟨"id0", "X", "T", []⟩], []⟩).2 = "id0") :=
  ⟨entity_id_policy.1 (some "Database") "u1",
   entity_id_policy.2.1 "X" none [] "u9" ⟨[⟨"id0", "X", "T", []⟩], []⟩
     ⟨"id0", "X", "T", []⟩ rfl⟩

/-! ### C9 -/

theorem dotList_def (a b : List ℝ) :
    dotList a b = (List.zipWith (fun x y => x * y) a b).sum := rfl

theorem zipWith_sq_left : ∀ (a b : List ℝ), a.length = b.length →
    List.zipWith (fun x _ => x * x) a b = List.zipWith (fun x y => x * y) a a
  | [], [], _ => rfl
  | [], _ :: _, h => by simp at h
  | _ :: _, [], h => by simp at h
  | x :: xs, y :: ys, h => by
      simp only [List.zipWith_cons_cons, List.cons.injEq, true_and]
      exact zipWith_sq_left xs ys (by simpa using h)

theorem zipWith_sq_right : ∀ (a b : List ℝ), a.length = b.length →
    List.zipWith (fun _ y => y * y) a b = List.zipWith (fun x y => x * y) b b
  | [], [], _ => rfl
  | [], _ :: _, h => by simp at h
  | _ :: _, [], h => by simp at h
  | x :: xs, y :: ys, h => by
      simp only [List.zipWith_cons_cons, List.cons.injEq, true_and]
      exact zipWith_sq_right xs ys (by simpa using h)

theorem dotList_self_nonneg (a : List ℝ) : 0 ≤ dotList a a := by
  rw [dotList_def, List.zipWith_same]
  apply List.sum_nonneg
  intro x hx
  obtain ⟨y, _, rfl⟩ := List.mem_map.mp hx
  exact mul_self_nonneg y

theorem normList_eq_zero_iff (a : List ℝ) : normList a = 0 ↔ dotList a a = 0 := by
  unfold normList
  rw [Real.sqrt_eq_zero']
  constructor
  · intro h
    exact le_antisymm h (dotList_self_nonneg a)
  · intro h
    exact le_of_eq h

theorem take_min_length_eq (a b : List ℝ) :
    (a.take (min a.length b.length)).length = (b.take (min a.length b.length)).length := by
  simp [List.length_take]

/-- The source's accumulator sums, rewritten over the truncated lists. -/
theorem cosineSimilarity_take (a b : List ℝ) :
    cosineSimilarity a b =
      (if dotList (a.take (min a.length b.length)) (a.take (min a.length b.length)) = 0 ∨
          dotList (b.take (min a.length b.length)) (b.take (min a.length b.length)) = 0
       then 0
       else dotList (a.take (min a.length b.length)) (b.take (min a.length b.length)) /
        (Real.sqrt (dotList (a.take (min a.length b.length))
            (a.take (min a.length b.length))) *
         Real.sqrt (dotList (b.take (min a.length b.length))
            (b.take (min a.length b.length))))) := by
  have hlen := take_min_length_eq a b
  simp only [cosineSimilarity]
  rw [List.zipWith_eq_zipWith_take_min (f := fun x y => x * y) a b,
    List.zipWith_eq_zipWith_take_min (f := fun x _ => x * x) a b,
    List.zipWith_eq_zipWith_take_min (f := fun _ y => y * y) a b,
    zipWith_sq_left _ _ hlen, zipWith_sq_right _ _ hlen]
  rw [← dotList_def, ← dotList_def, ← dotList_def]

/-- C9: `cosineSimilarity` equals the spec's `dot/(‖a‖·‖b‖)` over the
shorter common length, is exactly 0 whenever either norm over that common
length is 0, and takes the three required concrete values. -/
theorem cosineSimilarity_spec :
    (∀ a b : List ℝ,
      ((normList (a.take (min a.length b.length)) = 0 ∨
        normList (b.take (min a.length b.length)) = 0) →
          cosineSimilarity a b = 0) ∧
      (normList (a.take (min a.length b.length)) ≠ 0 →
       normList (b.take (min a.length b.length)) ≠ 0 →
          cosineSimilarity a b =
            dotList (a.take (min a.length b.length)) (b.take (min a.length b.length)) /
              (normList (a.take (min a.length b.length)) *
                normList (b.take (min a.length b.length))))) ∧
    (cosineSimilarity [0, 0, 0] [1, 0, 0] = 0) ∧
    (cosineSimilarity [1, 0] [1, 0] = 1) ∧
    (cosineSimilarity [1, 0] [-1, 0] = -1) := by
  refine ⟨fun a b => ⟨?_, ?_⟩, ?_, ?_, ?_⟩
  · intro h0
    rw [cosineSimilarity_take a b, if_pos]
    rcases h0 with h | h
    · exact Or.inl ((normList_eq_zero_iff _).mp h)
    · exact Or.inr ((normList_eq_zero_iff _).mp h)
  · intro hA hB
    rw [cosineSimilarity_take a b, if_neg, normList, normList]
    intro hd
    rcases hd with h | h
    · exact hA ((normList_eq_zero_iff _).mpr h)
    · exact hB ((normList_eq_zero_iff _).mpr h)
  · norm_num [cosineSimilarity]
  · norm_num [cosineSimilarity, Real.sqrt_one]
  · norm_num [cosineSimilarity, Real.sqrt_one]

/-- Witness for C9 at the concrete pair `[1,0]`, `[1,0]`. -/
theorem cosineSimilarity_spec_witness :
    cosineSimilarity [1, 0] [1, 0] =
      dotList (([1, 0] : List ℝ).take (min ([1, 0] : List ℝ).length
          (([1, 0] : List ℝ)).length))
        (([1, 0] : List ℝ).take (min ([1, 0] : List ℝ).length (([1, 0] : List ℝ)).length)) /
      (normList (([1, 0] : List ℝ).take (min ([1, 0] : List ℝ).length
          (([1, 0] : List ℝ)).length)) *
       normList (([1, 0] : List ℝ).take (min ([1, 0] : List ℝ).length
          (([1, 0] : List ℝ)).length))) :=
  (cosineSimilarity_spec.1 [1, 0] [1, 0]).2
    (by norm_num [normList, dotList, Real.sqrt_one])
    (by norm_num [normList, dotList, Real.sqrt_one])

/-! ### C10 -/

/-- C10: a context string containing any character outside `[A-Za-z0-9_-]`
makes every Graph Store entry point fail with the Validation error before
the lock or any file is touched (the returned store is the input store,
lock and all); a non-string context is silently `"default"`; and any
context a validation accepts consists solely of allowed characters, so it
can never contain a path separator. -/
theorem context_name_safety {α : Type} (maxB : Nat) (st : Store) (ts : String)
    (f : Graph → Except Err (Graph × α)) :
    (∀ s : String, (∃ c ∈ s.data, allowedCtxChar c = false) →
       validateContext (.str s) =
         .error (.validation
           "Context name must be alphanumeric (hyphens and underscores allowed)") ∧
       loadGraphOp st (.str s) =
         .error (.validation
           "Context name must be alphanumeric (hyphens and underscores allowed)") ∧
       updateGraphRun maxB st (.str s) ts f =
         (.error (.validation
           "Context name must be alphanumeric (hyphens and underscores allowed)"), st) ∧
       undo st (.str s) =
         (.error (.validation
           "Context name must be alphanumeric (hyphens and underscores allowed)"), st)) ∧
    (validateContext .nonString = .ok "default") ∧
    (∀ s c, validateContext (.str s) = .ok c →
       ∀ ch ∈ c.data, allowedCtxChar ch = true) := by
  refine ⟨?_, rfl, ?_⟩
  · intro s hbad
    have hlt : (s.data.filter allowedCtxChar).length < s.data.length := by
      apply List.length_filter_lt_length_iff_exists.mpr
      obtain ⟨c, hc, hcf⟩ := hbad
      exact ⟨c, hc, by simp [hcf]⟩
    have hne : (⟨s.data.filter allowedCtxChar⟩ : String) ≠ s := by
      intro hEq
      have hdata : s.data.filter allowedCtxChar = s.data := congrArg String.data hEq
      rw [hdata] at hlt
      exact lt_irrefl _ hlt
    have hval : validateContext (.str s) =
        .error (.validation
          "Context name must be alphanumeric (hyphens and underscores allowed)") := by
      simp only [validateContext]
      rw [if_neg hne]
    refine ⟨hval, ?_, ?_, ?_⟩
    · simp only [loadGraphOp, hval]
      rfl
    · simp only [updateGraphRun, hval]
    · simp only [undo, hval]
  · intro s c hval ch hch
    simp only [validateContext] at hval
    by_cases hcl : (⟨s.data.filter allowedCtxChar⟩ : String) = s
    · rw [if_pos hcl] at hval
      injection hval with hc
      by_cases hemp : (⟨s.data.filter allowedCtxChar⟩ : String) = ("" : String)
      · rw [if_pos hemp] at hc
        subst hc
        revert hch
        revert ch
        decide
      · rw [if_neg hemp] at hc
        subst hc
        exact List.of_mem_filter hch
    · rw [if_neg hcl] at hval
      cases hval

/-- Witness for C10: the path-traversal attempt `../etc` is rejected by
every entry point with the store untouched, and a clean name passes with
only allowed characters. -/
theorem context_name_safety_witness :
    (validateContext (.str "../etc") =
      .error (.validation
        "Context name must be alphanumeric (hyphens and underscores allowed)")) ∧
    (updateGraphRun (α := Unit) 5 ⟨[], [], false⟩ (.str "../etc") "t1"
        (fun g => .ok (g, ())) =
      (.error (.validation
        "Context name must be alphanumeric (hyphens and underscores allowed)"),
       ⟨[], [], false⟩)) ∧
    (∀ ch ∈ ("my-ctx_1" : String).data, allowedCtxChar ch = true) := by
  have h := context_name_safety (α := Unit) 5 ⟨[], [], false⟩ "t1" (fun g => .ok (g, ()))
  have hbad := h.1 "../etc" ⟨'.', by decide, by decide⟩
  exact ⟨hbad.1, hbad.2.2.1, h.2.2 "my-ctx_1" "my-ctx_1" rfl⟩

end UKS
